import Mathlib

/-!
Verification of the `@expo/metro-config` transform worker
(`src/packages/@expo/metro-config/build/transform-worker/transform-worker.js`)
and of the web `ImageWrapper` component with its `useHeaders` /
`useImageHashes` hooks (`src/unnamed/part_000`).

The JavaScript code is shallowly embedded: pure routing logic becomes Lean
functions, external collaborators (the host bundler's default transform, the
CSS/Sass/SVG compilers, hash decoders) become explicit function parameters,
and the effectful React lifecycle becomes a small-step machine over an
explicit state with an emitted action trace.
-/

namespace Expo

/-- Boolean test that the string `p` is a literal prefix of `s`
(embedding of an anchored `^p` regular-expression test). -/
def prefixedBy (p s : String) : Bool := p.data.isPrefixOf s.data

/-- Boolean test that the string `p` is a literal suffix of `s`
(embedding of an anchored `p$` regular-expression test), implemented on
reversed character lists so that it computes from the end of the string. -/
def suffixedBy (p s : String) : Bool := p.data.reverse.isPrefixOf s.data.reverse

/-- The transform options record handed to the worker by the host bundler:
`type`, `platform`, `customTransformOptions.environment` (modelled as the
`environment` field), `minify` and `dev`.  A missing `platform` or
`environment` is `none`. -/
structure Options where
  type : String
  platform : Option String
  environment : Option String
  minify : Bool
  dev : Bool
deriving DecidableEq, Repr

/-- The two process-environment feature flags consulted by `transform`:
`_EXPO_METRO_SVG_MODULES` and `_EXPO_METRO_CSS_MODULES` (truthy or not). -/
structure EnvFlags where
  svgModules : Bool
  cssModules : Bool
deriving DecidableEq, Repr

/-- Embedding of `matchSvgModule`:
the regex `/\.module(\.(native|ios|android|web))?\.svg$/`. -/
def matchSvgModule (filePath : String) : Bool :=
  suffixedBy ".module.svg" filePath || suffixedBy ".module.native.svg" filePath ||
    suffixedBy ".module.ios.svg" filePath || suffixedBy ".module.android.svg" filePath ||
    suffixedBy ".module.web.svg" filePath

/-- Embedding of the CSS/Sass routing test in `transform`:
the regex `/\.(s?css|sass)$/`. -/
def matchCssFile (filename : String) : Bool :=
  suffixedBy ".css" filename || suffixedBy ".scss" filename || suffixedBy ".sass" filename

/-- The extensions accepted by the `+html` filename regex: the group
`([tj]sx?|[cm]js)?` is optional, so the empty extension is included. -/
def htmlExts : List String := ["", "ts", "tsx", "js", "jsx", "cjs", "mjs"]

/-- The string interpolated for `options.platform` inside the `+html` regex;
JavaScript template interpolation prints `undefined` for a missing value. -/
def platformStr (o : Options) : String := o.platform.getD "undefined"

/-- Embedding of the test
`filename.match(new RegExp("^app/\\+html(\\.platform)?\\.([tj]sx?|[cm]js)?$"))`:
the filename is exactly `app/+html` followed by an optional `.platform`
segment, a mandatory dot, and an optional script extension. -/
def matchesHtmlFile (o : Options) (filename : String) : Bool :=
  htmlExts.any (fun e => filename == "app/+html." ++ e) ||
    htmlExts.any (fun e => filename == "app/+html." ++ platformStr o ++ "." ++ e)

/-- The replacement source placed in the bundle for a client-environment
`+html` file when not minifying (the JS string literal keeps its quotes). -/
def htmlNotice : String :=
  "\"> The server-only +html file was removed from the client JS bundle by Expo CLI.\""

/-- The routing decision taken by `transform`: to which function the
invocation is delegated, and with which (possibly rewritten) arguments.
`metroDefault` is `metro-transform-worker`'s own `transform`. -/
inductive Dispatch where
  | metroDefault (config projectRoot filename data : String) (options : Options)
  | svg (config projectRoot filename data : String) (options : Options)
  | css (config projectRoot filename data : String) (options : Options)
deriving DecidableEq, Repr

/-- Embedding of the exported `transform` function: the SVG-module check
(behind the `_EXPO_METRO_SVG_MODULES` flag) comes first, then the asset
passthrough, then the CSS/Sass check (behind `_EXPO_METRO_CSS_MODULES`),
then the client-environment `+html` replacement, then the default. -/
def transform (env : EnvFlags) (config projectRoot filename data : String)
    (options : Options) : Dispatch :=
  if env.svgModules && matchSvgModule filename then
    Dispatch.svg config projectRoot filename data { options with type := "module" }
  else if options.type == "asset" then
    Dispatch.metroDefault config projectRoot filename data options
  else if env.cssModules && matchCssFile filename then
    Dispatch.css config projectRoot filename data options
  else if options.environment == some "client" && matchesHtmlFile options filename then
    Dispatch.metroDefault config projectRoot filename
      (if options.minify then "" else htmlNotice) options
  else
    Dispatch.metroDefault config projectRoot filename data options

end Expo

namespace Expo

/-- Sample options with `type := "asset"`, used at concrete inputs. -/
def assetOpts : Options :=
  { type := "asset", platform := some "ios", environment := none,
    minify := false, dev := true }

/-- Claim C1 (counterexample): with the `_EXPO_METRO_SVG_MODULES` flag unset,
a file named `x.module.svg` arriving with `options.type = "asset"` takes the
asset passthrough, not the SVG compiler, so the claim as stated is false. -/
theorem c1_counterexample :
    transform ⟨false, false⟩ "cfg" "root" "x.module.svg" "svgdata" assetOpts =
      Dispatch.metroDefault "cfg" "root" "x.module.svg" "svgdata" assetOpts ∧
    transform ⟨false, false⟩ "cfg" "root" "x.module.svg" "svgdata" assetOpts ≠
      Dispatch.svg "cfg" "root" "x.module.svg" "svgdata"
        { assetOpts with type := "module" } := by
  constructor
  · rfl
  · decide

/-- Claim C1 (amended): whenever the `_EXPO_METRO_SVG_MODULES` flag is set
and the filename matches the SVG module-naming pattern, `transform` routes
the file to `transformSvg` with `options.type` rewritten to `"module"`,
for every value of `options.type`, including `"asset"`. -/
theorem c1_svg_module_routing (env : EnvFlags) (config projectRoot filename data : String)
    (options : Options) (hflag : env.svgModules = true)
    (hmatch : matchSvgModule filename = true) :
    transform env config projectRoot filename data options =
      Dispatch.svg config projectRoot filename data { options with type := "module" } := by
  simp [transform, hflag, hmatch]

/-- Claim C1 witness: the amended routing theorem applied at a concrete
SVG-module filename arriving with asset type. -/
theorem c1_svg_module_routing_witness :
    transform ⟨true, false⟩ "cfg" "root" "icon.module.svg" "svgdata" assetOpts =
      Dispatch.svg "cfg" "root" "icon.module.svg" "svgdata"
        { assetOpts with type := "module" } :=
  c1_svg_module_routing ⟨true, false⟩ "cfg" "root" "icon.module.svg" "svgdata"
    assetOpts rfl (by decide)

end Expo

namespace Expo

/-- Generic list fact: if the pattern `p` mismatches the known front `k`
(neither is a prefix of the other), then `p` is a prefix of no extension
`k ++ r`, whatever the unknown tail `r` is. -/
theorem isPrefixOf_append_false_of_mismatch :
    ∀ (p k : List Char), p.isPrefixOf k = false → k.isPrefixOf p = false →
      ∀ r : List Char, p.isPrefixOf (k ++ r) = false := by
  intro p
  induction p with
  | nil => intro k h1 _ _; simp [List.isPrefixOf] at h1
  | cons a as ih =>
    intro k h1 h2 r
    cases k with
    | nil => simp [List.isPrefixOf] at h2
    | cons b bs =>
      show (a == b && as.isPrefixOf (bs ++ r)) = false
      have h1' : (a == b && as.isPrefixOf bs) = false := h1
      have h2' : (b == a && bs.isPrefixOf as) = false := h2
      cases hab : (a == b) with
      | false => simp [hab]
      | true =>
        have hba : (b == a) = true := by
          have := eq_of_beq hab; subst this; exact hab
        rw [hab, Bool.true_and] at h1'
        rw [hba, Bool.true_and] at h2'
        simp only [hab, Bool.true_and]
        exact ih bs h1' h2' r

/-- A suffix test against `pre ++ pl ++ dot ++ e` is decided by the known
tail `dot ++ e` alone when the pattern mismatches it within its length,
whatever the unknown middle `pl` and front `pre` are. -/
theorem suffixedBy_append_false (pat pre pl dot e : String)
    (h1 : pat.data.reverse.isPrefixOf (e.data.reverse ++ dot.data.reverse) = false)
    (h2 : (e.data.reverse ++ dot.data.reverse).isPrefixOf pat.data.reverse = false) :
    suffixedBy pat (pre ++ pl ++ dot ++ e) = false := by
  unfold suffixedBy
  have hsplit : (pre ++ pl ++ dot ++ e).data.reverse =
      (e.data.reverse ++ dot.data.reverse) ++ (pl.data.reverse ++ pre.data.reverse) := by
    simp
  rw [hsplit]
  exact isPrefixOf_append_false_of_mismatch _ _ h1 h2 _

/-- A filename of the form `app/+html.<platform>.<ext>` (for any platform
segment and any of the seven accepted extensions) matches neither the
SVG-module pattern nor the CSS/Sass pattern. -/
theorem html_platform_tail_excludes (pl e : String) (he : e ∈ htmlExts) :
    matchSvgModule ("app/+html." ++ pl ++ "." ++ e) = false ∧
      matchCssFile ("app/+html." ++ pl ++ "." ++ e) = false := by
  simp only [htmlExts] at he
  fin_cases he <;>
    (refine ⟨?_, ?_⟩ <;>
      simp only [matchSvgModule, matchCssFile, Bool.or_eq_false_iff, and_assoc] <;>
      (repeat' apply And.intro) <;>
      exact suffixedBy_append_false _ _ _ _ _ (by decide) (by decide))

/-- A filename matching the `+html` replacement regex never matches the
SVG-module pattern nor the CSS/Sass pattern, so neither of the earlier
pattern branches of `transform` can intercept it. -/
theorem html_match_excludes (o : Options) (f : String)
    (h : matchesHtmlFile o f = true) :
    matchSvgModule f = false ∧ matchCssFile f = false := by
  unfold matchesHtmlFile at h
  rw [Bool.or_eq_true] at h
  rcases h with h | h
  · rw [List.any_eq_true] at h
    obtain ⟨e, he, hf⟩ := h
    rw [beq_iff_eq] at hf
    subst hf
    simp only [htmlExts] at he
    fin_cases he <;> exact ⟨by decide, by decide⟩
  · rw [List.any_eq_true] at h
    obtain ⟨e, he, hf⟩ := h
    rw [beq_iff_eq] at hf
    subst hf
    exact html_platform_tail_excludes (platformStr o) e he

/-- Sample options for a client-environment invocation arriving with asset
type, used at concrete inputs. -/
def clientAssetOpts : Options :=
  { type := "asset", platform := some "web", environment := some "client",
    minify := false, dev := true }

/-- Sample options for a client-environment module invocation, used at
concrete inputs. -/
def clientModuleOpts : Options :=
  { type := "module", platform := some "web", environment := some "client",
    minify := false, dev := true }

/-- Claim C9 (counterexample): a client-environment invocation on
`app/+html.tsx` whose `options.type` is `"asset"` takes the asset
passthrough with the original contents, so the file is not replaced and
the claim as stated is false. -/
theorem c9_counterexample :
    transform ⟨false, false⟩ "cfg" "root" "app/+html.tsx" "original" clientAssetOpts =
      Dispatch.metroDefault "cfg" "root" "app/+html.tsx" "original" clientAssetOpts ∧
    transform ⟨false, false⟩ "cfg" "root" "app/+html.tsx" "original" clientAssetOpts ≠
      Dispatch.metroDefault "cfg" "root" "app/+html.tsx" htmlNotice clientAssetOpts := by
  constructor
  · rfl
  · decide

/-- Claim C9 (amended): when the environment is `client`, the type is not
`asset`, and the filename matches the `+html` pattern, the file contents are
discarded and the default transform runs on the replacement buffer: the
visible notice when not minifying, the empty buffer when minifying. -/
theorem c9_html_replacement (env : EnvFlags) (config projectRoot filename data : String)
    (o : Options) (henv : o.environment = some "client") (htype : o.type ≠ "asset")
    (hmatch : matchesHtmlFile o filename = true) :
    transform env config projectRoot filename data o =
      Dispatch.metroDefault config projectRoot filename
        (if o.minify then "" else htmlNotice) o := by
  obtain ⟨hsvg, hcss⟩ := html_match_excludes o filename hmatch
  have htype' : (o.type == "asset") = false := by
    simpa using htype
  simp [transform, hsvg, hcss, henv, hmatch, htype']

/-- Claim C9 witness: the replacement theorem applied to
`app/+html.web.tsx` in a client-environment module invocation. -/
theorem c9_html_replacement_witness :
    transform ⟨true, true⟩ "cfg" "root" "app/+html.web.tsx" "original" clientModuleOpts =
      Dispatch.metroDefault "cfg" "root" "app/+html.web.tsx" htmlNotice clientModuleOpts := by
  have h := c9_html_replacement ⟨true, true⟩ "cfg" "root" "app/+html.web.tsx" "original"
    clientModuleOpts rfl (by decide) (by decide)
  simpa using h

/-- Claim C7 (counterexample): the invocation on `app/+html.js` below
matches none of the SVG-module, asset, or CSS/Sass routing conditions, yet
its result is the default transform applied to the replacement notice, not
to the original contents, so the claim as stated is false. -/
theorem c7_counterexample :
    transform ⟨false, false⟩ "cfg" "root" "app/+html.js" "let x=1" clientModuleOpts =
      Dispatch.metroDefault "cfg" "root" "app/+html.js" htmlNotice clientModuleOpts ∧
    transform ⟨false, false⟩ "cfg" "root" "app/+html.js" "let x=1" clientModuleOpts ≠
      Dispatch.metroDefault "cfg" "root" "app/+html.js" "let x=1" clientModuleOpts := by
  constructor
  · decide
  · decide

/-- Claim C7 (amended): a transform invocation matching none of the
SVG-module, asset, CSS/Sass, or client-environment `+html` replacement
conditions is the host bundler's default transform applied to the original,
unmodified arguments. -/
theorem c7_default_passthrough (env : EnvFlags) (config projectRoot filename data : String)
    (o : Options)
    (hsvg : ¬(env.svgModules = true ∧ matchSvgModule filename = true))
    (htype : o.type ≠ "asset")
    (hcss : ¬(env.cssModules = true ∧ matchCssFile filename = true))
    (hhtml : ¬(o.environment = some "client" ∧ matchesHtmlFile o filename = true)) :
    transform env config projectRoot filename data o =
      Dispatch.metroDefault config projectRoot filename data o := by
  have h1 : (env.svgModules && matchSvgModule filename) = false := by
    cases hs : env.svgModules <;> cases hm : matchSvgModule filename <;> simp_all
  have h2 : (o.type == "asset") = false := by simpa using htype
  have h3 : (env.cssModules && matchCssFile filename) = false := by
    cases hs : env.cssModules <;> cases hm : matchCssFile filename <;> simp_all
  have h4 : (o.environment == some "client" && matchesHtmlFile o filename) = false := by
    cases he : (o.environment == some "client") <;>
      cases hm : matchesHtmlFile o filename <;> simp_all
  simp [transform, h1, h2, h3, h4]

/-- Claim C7 witness: an ordinary TypeScript module invocation falls
through to the default transform with its arguments untouched. -/
theorem c7_default_passthrough_witness :
    transform ⟨true, true⟩ "cfg" "root" "src/App.tsx" "export default 1" clientModuleOpts =
      Dispatch.metroDefault "cfg" "root" "src/App.tsx" "export default 1" clientModuleOpts :=
  c7_default_passthrough ⟨true, true⟩ "cfg" "root" "src/App.tsx" "export default 1"
    clientModuleOpts (by decide) (by decide) (by decide) (by decide)

/-- The css metadata record appended to an output artifact for static
extraction: `code`, `lineCount`, `map` (always `[]`) and `functionMap`
(always `null`, modelled as `none`). -/
structure CssMeta where
  code : String
  lineCount : Nat
  map : List String
  functionMap : Option String
deriving DecidableEq, Repr

/-- The data carried by one output artifact.  The fields produced by the
host bundler's default transform are kept opaque as key/value pairs; the
worker may append a `css` metadata record on top of them. -/
structure ArtifactData where
  fields : List (String × String)
  css : Option CssMeta
deriving DecidableEq, Repr

/-- One output artifact, tagged by `type`. -/
structure Artifact where
  type : String
  data : ArtifactData
deriving DecidableEq, Repr

/-- The transform result shape expected by the host bundler: a dependency
list plus a list of tagged output artifacts. -/
structure MetroResult where
  dependencies : List String
  output : List Artifact
deriving DecidableEq, Repr

/-- The result of `transformCssModuleWeb`: the JS source handed to the
default transform, and the compiled css text. -/
structure CssModuleWebResult where
  output : String
  css : String
deriving DecidableEq, Repr

/-- The external collaborators invoked by `transformCss`, kept abstract:
the host bundler's default transform (`config`, `projectRoot`, `filename`,
`data`, `options`), the PostCSS step (`projectRoot`, `src`, `filename`),
Sass detection and compilation, the CSS-module compiler (`filename`,
`src`, `projectRoot`, `dev`, `minify`), lightningcss (`filename`, `code`,
`projectRoot`, `minify`), the development css wrapper (`src`, `filename`),
and `countLines`. -/
structure CssExternals where
  metroTransform : String → String → String → String → Options → MetroResult
  transformPostCssModule : String → String → String → String
  matchSass : String → Option String
  compileSass : String → String → String → String → String
  transformCssModuleWeb : String → String → String → Bool → Bool → CssModuleWebResult
  lightningcssTransform : String → String → String → Bool → String
  wrapDevelopmentCSS : String → String → String
  countLines : String → Nat

/-- One external call made by `transformCss`, recorded with its arguments. -/
inductive CssCall where
  | metro (config projectRoot filename data : String) (options : Options)
  | postcss (projectRoot src filename : String)
  | sass (projectRoot filename src stx : String)
  | cssModuleWeb (filename src : String)
  | lightningcss (filename code : String) (minify : Bool)
deriving DecidableEq, Repr

/-- Modelled from the spec: `matchCssModule` lives in `css-modules.js`,
which is not among the provided sources.  The spec speaks of "the
CSS-module naming pattern"; following its glossary and the SVG-module
pattern that is present in the sources, it is modelled as the conventional
`.module.(css|scss|sass)` naming with an optional platform tag. -/
def matchCssModule (filePath : String) : Bool :=
  ["", ".native", ".ios", ".android", ".web"].any fun p =>
    [".css", ".scss", ".sass"].any fun e => suffixedBy (".module" ++ p ++ e) filePath

/-- The empty style export substituted for a CSS-module file on non-web
platforms. -/
def emptyCssModuleExport : String :=
  "module.exports=\x7b unstable_styles: \x7b\x7d \x7d;"

/-- Embedding of the exported `transformCss`.  The pair returned is the
transform result together with the trace of external calls, in order: the
non-web branch makes exactly one call (the default transform on the
replacement text); the web branch runs PostCSS, optionally Sass, then
either the CSS-module compiler or lightningcss, then the default transform
on the synthetic JS module, and wraps the css text into the single
`js/module` output artifact. -/
def transformCss (ext : CssExternals) (config projectRoot filename data : String)
    (options : Options) : MetroResult × List CssCall :=
  if options.platform ≠ some "web" then
    let code := if matchCssModule filename then emptyCssModuleExport else ""
    (ext.metroTransform config projectRoot filename code options,
     [CssCall.metro config projectRoot filename code options])
  else
    let code0 := data
    let code1 := ext.transformPostCssModule projectRoot code0 filename
    let sassStep : String × List CssCall :=
      match ext.matchSass filename with
      | some stx => (ext.compileSass projectRoot filename code1 stx,
          [CssCall.sass projectRoot filename code1 stx])
      | none => (code1, [])
    let code2 := sassStep.1
    if matchCssModule filename then
      let results := ext.transformCssModuleWeb filename code2 projectRoot
        options.dev options.minify
      let jsModuleResults := ext.metroTransform config projectRoot filename
        results.output options
      let cssCode := results.css
      ({ dependencies := jsModuleResults.dependencies,
         output := [⟨"js/module",
           ⟨((jsModuleResults.output.head?).map (fun a => a.data.fields)).getD [],
            some ⟨cssCode, ext.countLines cssCode, [], none⟩⟩⟩] },
       CssCall.postcss projectRoot code0 filename :: sassStep.2 ++
         [CssCall.cssModuleWeb filename code2,
          CssCall.metro config projectRoot filename results.output options])
    else
      let cssCode := ext.lightningcssTransform filename code2 projectRoot options.minify
      let jsData := if options.dev then ext.wrapDevelopmentCSS code2 filename else ""
      let jsModuleResults := ext.metroTransform config projectRoot filename jsData options
      ({ dependencies := jsModuleResults.dependencies,
         output := [⟨"js/module",
           ⟨((jsModuleResults.output.head?).map (fun a => a.data.fields)).getD [],
            some ⟨cssCode, ext.countLines cssCode, [], none⟩⟩⟩] },
       CssCall.postcss projectRoot code0 filename :: sassStep.2 ++
         [CssCall.lightningcss filename code2 options.minify,
          CssCall.metro config projectRoot filename jsData options])

/-- Claim C4: on any non-web platform, `transformCss` is exactly the default
transform applied to the replacement source text (the empty style export for
CSS-module filenames, the empty string otherwise), and the call trace shows
that no CSS, Sass, or PostCSS compiler was invoked on that path. -/
theorem c4_non_web_css (ext : CssExternals) (config projectRoot filename data : String)
    (options : Options) (h : options.platform ≠ some "web") :
    transformCss ext config projectRoot filename data options =
      (ext.metroTransform config projectRoot filename
        (if matchCssModule filename then emptyCssModuleExport else "") options,
       [CssCall.metro config projectRoot filename
         (if matchCssModule filename then emptyCssModuleExport else "") options]) := by
  simp [transformCss, h]

/-- Claim C6: on the web platform, whichever of the CSS-module and
global-CSS branches runs, the result is the dependency list of the synthetic
JS-module transform plus exactly one output artifact of type `js/module`,
whose data carries the base JS-module output fields plus a css metadata
record with fields `code`, `lineCount` (the line count of the css code),
`map = []` and `functionMap = none`. -/
theorem c6_web_css_single_artifact (ext : CssExternals)
    (config projectRoot filename data : String) (options : Options)
    (h : options.platform = some "web") :
    ∃ (jsr : MetroResult) (cssCode : String),
      (transformCss ext config projectRoot filename data options).1 =
        { dependencies := jsr.dependencies,
          output := [⟨"js/module",
            ⟨((jsr.output.head?).map (fun a => a.data.fields)).getD [],
             some ⟨cssCode, ext.countLines cssCode, [], none⟩⟩⟩] } := by
  unfold transformCss
  rw [if_neg (by simp [h])]
  cases hs : ext.matchSass filename <;> cases hm : matchCssModule filename <;>
    simp only [hs, hm, if_pos, if_neg, Bool.false_eq_true, not_false_eq_true] <;>
    exact ⟨_, _, rfl⟩

/-- A concrete instantiation of the external collaborators of
`transformCss`, used to evaluate the theorems at concrete inputs. -/
def extTest : CssExternals :=
  { metroTransform := fun _ _ _ d o =>
      { dependencies := ["dep"],
        output := [⟨"js/module", ⟨[("code", d), ("type", o.type)], none⟩⟩] },
    transformPostCssModule := fun _ s _ => s,
    matchSass := fun f =>
      if suffixedBy ".sass" f then some "indented"
      else if suffixedBy ".scss" f then some "scss" else none,
    compileSass := fun _ _ s _ => s,
    transformCssModuleWeb := fun _ s _ _ _ => ⟨s, s ++ "-css"⟩,
    lightningcssTransform := fun _ c _ _ => c,
    wrapDevelopmentCSS := fun s _ => s,
    countLines := fun s => (s.splitOn "\n").length }

/-- Claim C4 witness: the non-web theorem applied to a CSS-module filename
on the ios platform with concrete externals. -/
theorem c4_non_web_css_witness :
    transformCss extTest "cfg" "root" "app.module.css" "body" assetOpts =
      (extTest.metroTransform "cfg" "root" "app.module.css"
        (if matchCssModule "app.module.css" then emptyCssModuleExport else "") assetOpts,
       [CssCall.metro "cfg" "root" "app.module.css"
         (if matchCssModule "app.module.css" then emptyCssModuleExport else "") assetOpts]) :=
  c4_non_web_css extTest "cfg" "root" "app.module.css" "body" assetOpts (by decide)

/-- Sample options for a web-platform invocation, used at concrete inputs. -/
def webOpts : Options :=
  { type := "module", platform := some "web", environment := none,
    minify := false, dev := true }

/-- Claim C6 witness: the web output-shape theorem applied to a global CSS
file with concrete externals. -/
theorem c6_web_css_single_artifact_witness :
    ∃ (jsr : MetroResult) (cssCode : String),
      (transformCss extTest "cfg" "root" "styles.css" "body" webOpts).1 =
        { dependencies := jsr.dependencies,
          output := [⟨"js/module",
            ⟨((jsr.output.head?).map (fun a => a.data.fields)).getD [],
             some ⟨cssCode, extTest.countLines cssCode, [], none⟩⟩⟩] } :=
  c6_web_css_single_artifact extTest "cfg" "root" "styles.css" "body" webOpts rfl

/-- An image source descriptor: a URI (possibly missing) and an optional
header mapping.  Width/height and source-set fields are not needed by the
verified properties and are omitted. -/
structure ImageSource where
  uri : Option String
  headers : Option (List (String × String))
deriving DecidableEq, Repr

/-- Embedding of the recurring JavaScript expression `source?.uri || ''`. -/
def sourceUriStr (source : Option ImageSource) : String :=
  (source.bind fun s => s.uri).getD ""

/-- JavaScript truthiness of a uri value (`!source.uri`): a missing or
empty string is falsy. -/
def uriTruthy : Option String → Bool
  | none => false
  | some s => s != ""

/-- Modelled from the spec: `isBlurhashString` (in `../utils/resolveSources`)
is not among the provided sources; per the spec, a recognized blurhash
string carries the `blurhash:/` scheme prefix. -/
def isBlurhashString (s : String) : Bool := prefixedBy "blurhash:/" s

/-- Modelled from the spec: `isThumbhashString` is not among the provided
sources; per the spec, and corroborated by the `thumbhash:/` stripping
performed in `useThumbhash`, a recognized thumbhash string carries the
`thumbhash:/` scheme prefix. -/
def isThumbhashString (s : String) : Bool := prefixedBy "thumbhash:/" s

/-- Removal of the first occurrence of the pattern `p` from a character
list (the behaviour of `String.replace` with a non-global regex). -/
def stripFirstList (p : List Char) : List Char → List Char
  | [] => []
  | c :: cs =>
    if p.isPrefixOf (c :: cs) then (c :: cs).drop p.length
    else c :: stripFirstList p cs

/-- Embedding of `uri.replace(/thumbhash:\//, '')`: remove the first
occurrence of the pattern from the string. -/
def stripFirst (p s : String) : String := ⟨stripFirstList p.data s.data⟩

/-- The hash decoders, kept abstract: `thumb` is `thumbHashStringToDataURL`
and `blur` is the decoder used by `useBlurhash`; both produce a displayable
data URI. -/
structure HashDecoders where
  blur : String → String
  thumb : String → String

/-- Embedding of `useThumbhash`: for a thumbhash-prefixed uri, a source
whose uri is the data URL decoded from the stripped hash; otherwise
nothing. -/
def useThumbhash (dec : HashDecoders) (source : Option ImageSource) :
    Option ImageSource :=
  let stripped : String :=
    match source.bind fun s => s.uri with
    | some u => stripFirst "thumbhash:/" u
    | none => ""
  if isThumbhashString (sourceUriStr source) then
    some ⟨some (dec.thumb stripped), none⟩
  else none

/-- Modelled from the spec: `useBlurhash` (in `../utils/blurhash/useBlurhash`)
is not among the provided sources.  Per the spec's placeholder-resolution
contract, a blurhash-prefixed uri is synchronously decoded into a
displayable data-URI source, and any other source yields nothing. -/
def useBlurhash (dec : HashDecoders) (source : Option ImageSource) :
    Option ImageSource :=
  if isBlurhashString (sourceUriStr source) then
    some ⟨some (dec.blur (sourceUriStr source)), none⟩
  else none

/-- Embedding of `useImageHashes`: the resolved source is
`blurhash ?? thumbhash ?? null` when the uri is a recognized hash string,
and the original source otherwise; the second component is `isImageHash`. -/
def useImageHashes (dec : HashDecoders) (source : Option ImageSource) :
    Option ImageSource × Bool :=
  let thumbhash := useThumbhash dec source
  let blurhash := useBlurhash dec source
  let isImageHash :=
    isBlurhashString (sourceUriStr source) || isThumbhashString (sourceUriStr source)
  (if isImageHash then blurhash.or thumbhash else source, isImageHash)

/-- The return value of `useHeaders` as a function of the hook argument and
the current `objectURL` state: a source without headers passes through
unchanged; with headers it is nothing until an object URL exists, and then
the source with its uri replaced by the object URL. -/
def useHeadersReturn (source : Option ImageSource) (objectURL : Option String) :
    Option ImageSource :=
  match source with
  | none => none
  | some s =>
    match s.headers with
    | none => some s
    | some _ =>
      match objectURL with
      | none => none
      | some u => some { s with uri := some u }

/-- The rendered img element, reduced to the field the claims speak about:
the `src` attribute. -/
structure RenderedImg where
  src : Option String
deriving DecidableEq, Repr

/-- Embedding of the `ImageWrapper` render for a given hook state: resolve
hashes, feed the resolved source through the `useHeaders` return value,
render nothing when that is nothing, otherwise an img whose `src` is
`sourceWithHeaders?.uri || undefined`. -/
def renderImageWrapper (dec : HashDecoders) (source : Option ImageSource)
    (objectURL : Option String) : Option RenderedImg :=
  let resolvedSource := (useImageHashes dec source).1
  match useHeadersReturn resolvedSource objectURL with
  | none => none
  | some s =>
    some ⟨match s.uri with
          | some u => if u == "" then none else some u
          | none => none⟩

/-- What the fetch effect of `useHeaders` does for a given hook argument:
it starts a fetch (returning the uri and headers used) only when the
source has a headers mapping and a truthy uri (the guard
`!source?.headers || !source.uri`). -/
def effectFetch (source : Option ImageSource) :
    Option (String × List (String × String)) :=
  match source with
  | none => none
  | some s =>
    match s.headers with
    | none => none
    | some h =>
      match s.uri with
      | none => none
      | some u => if u == "" then none else some (u, h)

/-- How a started fetch settles: a fresh blob object URL, or a failure
(network error or a non-ok HTTP status, both thrown into the catch). -/
inductive FetchOutcome where
  | success (url : String)
  | failure
deriving DecidableEq, Repr

/-- The observable actions of the `useHeaders` lifecycle. -/
inductive Action where
  | fetchStart (uri : String) (headers : List (String × String))
  | setURL (url : String)
  | revoke (url : String)
  | logError
  | errorCallback (idx : Nat) (source : Option ImageSource)
deriving DecidableEq, Repr

/-- One lifecycle episode: the raw source prop the component currently
sees, and how the fetch started for it (if any) settles — `none` while the
fetch is still pending. -/
structure Episode where
  source : Option ImageSource
  outcome : Option FetchOutcome
deriving DecidableEq, Repr

/-- One step of the `useHeaders` machine.  The effect runs over the
resolved source; without headers and a truthy uri nothing happens.  A
pending fetch only records its start.  A successful fetch stores the blob
object URL (unless identical, in which case React bails out of the state
update) and the cleanup of the superseded effect revokes the previous
non-null object URL.  A failed fetch is caught: it logs and invokes every
callback of the `onError` list with the hook's source, leaving the state
unchanged. -/
def stepEpisode (dec : HashDecoders) (nCallbacks : Nat) (st : Option String)
    (ep : Episode) : Option String × List Action :=
  let resolved := (useImageHashes dec ep.source).1
  match effectFetch resolved with
  | none => (st, [])
  | some (u, h) =>
    match ep.outcome with
    | none => (st, [Action.fetchStart u h])
    | some (FetchOutcome.success url) =>
      if st == some url then (st, [Action.fetchStart u h])
      else (some url,
        [Action.fetchStart u h, Action.setURL url] ++
          (match st with | some old => [Action.revoke old] | none => []))
    | some FetchOutcome.failure =>
      (st, [Action.fetchStart u h, Action.logError] ++
        (List.range nCallbacks).map fun k => Action.errorCallback k resolved)

/-- Run a sequence of episodes from a given state, accumulating actions. -/
def runEpisodes (dec : HashDecoders) (n : Nat) (st : Option String) :
    List Episode → Option String × List Action
  | [] => (st, [])
  | ep :: eps =>
    let r := stepEpisode dec n st ep
    let rest := runEpisodes dec n r.1 eps
    (rest.1, r.2 ++ rest.2)

/-- The complete lifecycle: mount with no object URL, run the episodes,
then unmount, whose cleanup revokes the current object URL if one exists. -/
def fullRun (dec : HashDecoders) (n : Nat) (eps : List Episode) : List Action :=
  let r := runEpisodes dec n none eps
  r.2 ++ (match r.1 with | some u => [Action.revoke u] | none => [])

/-- The object URLs stored by the lifecycle, in order. -/
def setURLs (acts : List Action) : List String :=
  acts.filterMap fun a => match a with | Action.setURL u => some u | _ => none

/-- The object URLs revoked by the lifecycle, in order. -/
def revokedURLs (acts : List Action) : List String :=
  acts.filterMap fun a => match a with | Action.revoke u => some u | _ => none

/-- The error-callback invocations emitted by the lifecycle. -/
def errorEvents (acts : List Action) : List (Nat × Option ImageSource) :=
  acts.filterMap fun a =>
    match a with | Action.errorCallback k s => some (k, s) | _ => none

/-- Two pattern strings of which the shorter does not begin the longer can
never both be literal prefixes of the same string. -/
theorem prefixedBy_incompat (p q s : String) (hlen : p.data.length ≤ q.data.length)
    (hpq : ¬ p.data <+: q.data) (h1 : prefixedBy p s = true)
    (h2 : prefixedBy q s = true) : False := by
  unfold prefixedBy at h1 h2
  rw [ List.isPrefixOf_iff_prefix] at h1 h2
  exact hpq (List.prefix_of_prefix_length_le h1 h2 hlen)

/-- When the uri is neither a blurhash nor a thumbhash string, hash
resolution passes the original source through unchanged. -/
theorem resolve_not_hash (dec : HashDecoders) (source : Option ImageSource)
    (hb : isBlurhashString (sourceUriStr source) = false)
    (ht : isThumbhashString (sourceUriStr source) = false) :
    (useImageHashes dec source).1 = source := by
  simp [useImageHashes, hb, ht]

/-- Claim C3: if the decoders produce data URIs, a source whose uri has a
recognized hash prefix resolves to a decoded data-URI placeholder source
that is never the raw hash string, while a source whose uri matches
neither prefix resolves to the original source object unchanged. -/
theorem c3_hash_resolution (dec : HashDecoders) (source : Option ImageSource)
    (hblur : ∀ s, prefixedBy "data:" (dec.blur s) = true)
    (hthumb : ∀ s, prefixedBy "data:" (dec.thumb s) = true) :
    ((isBlurhashString (sourceUriStr source) = true ∨
        isThumbhashString (sourceUriStr source) = true) →
      ∃ d, (useImageHashes dec source).1 = some ⟨some d, none⟩ ∧
        prefixedBy "data:" d = true ∧ d ≠ sourceUriStr source) ∧
    (isBlurhashString (sourceUriStr source) = false →
      isThumbhashString (sourceUriStr source) = false →
      (useImageHashes dec source).1 = source) := by
  constructor
  · intro h
    cases hb : isBlurhashString (sourceUriStr source) with
    | true =>
      refine ⟨dec.blur (sourceUriStr source), ?_, hblur _, ?_⟩
      · simp [useImageHashes, useBlurhash, hb, Option.or]
      · intro heq
        exact prefixedBy_incompat "data:" "blurhash:/" (sourceUriStr source)
          (by decide) (by decide) (heq ▸ hblur _) hb
    | false =>
      have ht : isThumbhashString (sourceUriStr source) = true := by
        rcases h with h | h
        · rw [hb] at h; cases h
        · exact h
      refine ⟨dec.thumb (match source.bind fun s => s.uri with
          | some u => stripFirst "thumbhash:/" u
          | none => ""), ?_, hthumb _, ?_⟩
      · simp [useImageHashes, useBlurhash, useThumbhash, hb, ht, Option.or]
      · intro heq
        exact prefixedBy_incompat "data:" "thumbhash:/" (sourceUriStr source)
          (by decide) (by decide) (heq ▸ hthumb _) ht
  · intro hb ht
    exact resolve_not_hash dec source hb ht

/-- Concrete hash decoders producing fixed data URIs, used at concrete
inputs. -/
def decConst : HashDecoders :=
  { blur := fun _ => "data:blurimg", thumb := fun _ => "data:thumbimg" }

/-- Claim C3 witness: the resolution theorem applied to a concrete
blurhash-prefixed source with the concrete decoders. -/
theorem c3_hash_resolution_witness :
    ((isBlurhashString (sourceUriStr (some ⟨some "blurhash:/LEHV", none⟩)) = true ∨
        isThumbhashString (sourceUriStr (some ⟨some "blurhash:/LEHV", none⟩)) = true) →
      ∃ d, (useImageHashes decConst (some ⟨some "blurhash:/LEHV", none⟩)).1 =
          some ⟨some d, none⟩ ∧
        prefixedBy "data:" d = true ∧
        d ≠ sourceUriStr (some ⟨some "blurhash:/LEHV", none⟩)) ∧
    (isBlurhashString (sourceUriStr (some ⟨some "blurhash:/LEHV", none⟩)) = false →
      isThumbhashString (sourceUriStr (some ⟨some "blurhash:/LEHV", none⟩)) = false →
      (useImageHashes decConst (some ⟨some "blurhash:/LEHV", none⟩)).1 =
        some ⟨some "blurhash:/LEHV", none⟩) :=
  c3_hash_resolution decConst (some ⟨some "blurhash:/LEHV", none⟩)
    (fun _ => rfl) (fun _ => rfl)

/-- A step whose episode carries no successful fetch outcome leaves the
object-URL state unchanged. -/
theorem stepEpisode_state_of_no_success (dec : HashDecoders) (n : Nat)
    (st : Option String) (ep : Episode)
    (h : ∀ url, ep.outcome ≠ some (FetchOutcome.success url)) :
    (stepEpisode dec n st ep).1 = st := by
  unfold stepEpisode
  cases hef : effectFetch (useImageHashes dec ep.source).1 with
  | none => simp [hef]
  | some p =>
    obtain ⟨u, hd⟩ := p
    cases ho : ep.outcome with
    | none => simp [hef, ho]
    | some oc =>
      cases oc with
      | success url => exact absurd ho (h url)
      | failure => simp [hef, ho]

/-- As long as no fetch has settled successfully, the object-URL state of
the lifecycle stays empty. -/
theorem runEpisodes_state_none (dec : HashDecoders) (n : Nat) :
    ∀ eps : List Episode,
      (∀ ep ∈ eps, ∀ url, ep.outcome ≠ some (FetchOutcome.success url)) →
      (runEpisodes dec n none eps).1 = none := by
  intro eps
  induction eps with
  | nil => intro _; rfl
  | cons ep eps ih =>
    intro hs
    have h1 : (stepEpisode dec n none ep).1 = none :=
      stepEpisode_state_of_no_success dec n none ep
        (hs ep (List.mem_cons_self ep eps))
    simp only [runEpisodes, h1]
    exact ih fun e he url => hs e (List.mem_cons_of_mem ep he) url

/-- Claim C2 (amended): for a source with a headers mapping whose uri is
not a recognized hash string, the component renders nothing whenever no
object URL exists, the object URL stays absent for as long as no fetch has
completed successfully, and once an object URL exists the rendered img has
exactly that object URL as its src. -/
theorem c2_headers_gate (dec : HashDecoders) (n : Nat) (source : ImageSource)
    (hdrs : List (String × String)) (hh : source.headers = some hdrs)
    (hb : isBlurhashString (sourceUriStr (some source)) = false)
    (ht : isThumbhashString (sourceUriStr (some source)) = false)
    (eps : List Episode)
    (hs : ∀ ep ∈ eps, ∀ url, ep.outcome ≠ some (FetchOutcome.success url)) :
    renderImageWrapper dec (some source) none = none ∧
    (runEpisodes dec n none eps).1 = none ∧
    ∀ u, u ≠ "" →
      renderImageWrapper dec (some source) (some u) = some ⟨some u⟩ := by
  have hres : (useImageHashes dec (some source)).1 = some source :=
    resolve_not_hash dec (some source) hb ht
  refine ⟨?_, runEpisodes_state_none dec n eps hs, ?_⟩
  · simp [renderImageWrapper, hres, useHeadersReturn, hh]
  · intro u hu
    have hu' : (u == "") = false := by
      rw [beq_eq_false_iff_ne]; exact hu
    simp [renderImageWrapper, hres, useHeadersReturn, hh, hu']

/-- A concrete https source carrying an authorization header, used at
concrete inputs. -/
def headerSrc : ImageSource :=
  ⟨some "https://example.com/i.png", some [("Authorization", "secret")]⟩

/-- Claim C2 witness: the gating theorem applied to the concrete header
source across a pending episode and a failed episode. -/
theorem c2_headers_gate_witness :
    renderImageWrapper decConst (some headerSrc) none = none ∧
    (runEpisodes decConst 1 none
      [⟨some headerSrc, none⟩, ⟨some headerSrc, some FetchOutcome.failure⟩]).1 = none ∧
    ∀ u, u ≠ "" →
      renderImageWrapper decConst (some headerSrc) (some u) = some ⟨some u⟩ :=
  c2_headers_gate decConst 1 headerSrc [("Authorization", "secret")] rfl
    (by decide) (by decide)
    [⟨some headerSrc, none⟩, ⟨some headerSrc, some FetchOutcome.failure⟩]
    (by intro ep hep url; fin_cases hep <;> simp)

/-- A thumbhash-prefixed source that also carries a headers mapping, used
at concrete inputs. -/
def thumbHeaderSrc : ImageSource :=
  ⟨some "thumbhash:/abc", some [("Authorization", "secret")]⟩

/-- Claim C2 (counterexample): a source whose uri is a recognized thumbhash
string but which also carries a headers mapping renders an img immediately
— with no object URL and before (indeed, without) any header-authenticated
fetch, which the resolved placeholder source never even starts. -/
theorem c2_counterexample :
    renderImageWrapper decConst (some thumbHeaderSrc) none =
      some ⟨some "data:thumbimg"⟩ ∧
    effectFetch (useImageHashes decConst (some thumbHeaderSrc)).1 = none := by
  exact ⟨rfl, rfl⟩

/-- Claim C5: a failed fetch for a headers source is caught: the machine
state (and hence what is rendered) is unchanged, the error is logged, and
every callback of the `onError` list is invoked with the hook's source;
with no previously stored object URL the component keeps rendering
nothing. -/
theorem c5_fetch_failure (dec : HashDecoders) (n : Nat) (source : ImageSource)
    (hdrs : List (String × String)) (u : String)
    (hh : source.headers = some hdrs) (hu : source.uri = some u) (hne : u ≠ "")
    (hb : isBlurhashString (sourceUriStr (some source)) = false)
    (ht : isThumbhashString (sourceUriStr (some source)) = false)
    (st : Option String) :
    stepEpisode dec n st ⟨some source, some FetchOutcome.failure⟩ =
      (st, [Action.fetchStart u hdrs, Action.logError] ++
        (List.range n).map fun k => Action.errorCallback k (some source)) ∧
    (st = none → renderImageWrapper dec (some source) st = none) := by
  have hres : (useImageHashes dec (some source)).1 = some source :=
    resolve_not_hash dec (some source) hb ht
  have hne' : (u == "") = false := by rw [beq_eq_false_iff_ne]; exact hne
  have heff : effectFetch (some source) = some (u, hdrs) := by
    simp [effectFetch, hh, hu, hne']
  constructor
  · simp [stepEpisode, hres, heff]
  · intro hst
    subst hst
    simp [renderImageWrapper, hres, useHeadersReturn, hh]

/-- Claim C5 witness: the failure theorem applied to the concrete header
source with two error callbacks and no stored object URL. -/
theorem c5_fetch_failure_witness :
    stepEpisode decConst 2 none ⟨some headerSrc, some FetchOutcome.failure⟩ =
      (none, [Action.fetchStart "https://example.com/i.png"
          [("Authorization", "secret")], Action.logError] ++
        (List.range 2).map fun k => Action.errorCallback k (some headerSrc)) ∧
    ((none : Option String) = none →
      renderImageWrapper decConst (some headerSrc) none = none) :=
  c5_fetch_failure decConst 2 headerSrc [("Authorization", "secret")]
    "https://example.com/i.png" rfl rfl (by decide) (by decide) (by decide) none

/-- Filtering a mapped list with a selector that rejects every mapped
element yields the empty list. -/
theorem filterMap_map_none {α β γ : Type} (g : α → β) (f : β → Option γ)
    (h : ∀ a, f (g a) = none) (l : List α) :
    List.filterMap f (List.map g l) = [] := by
  induction l with
  | nil => rfl
  | cons a l ih => simp [List.filterMap_cons, h, ih]

/-- Accounting for one lifecycle step: the urls revoked during the step
together with the object URL held afterwards are exactly the url held
before plus the urls stored during the step. -/
theorem stepEpisode_revoke_inv (dec : HashDecoders) (n : Nat) (st : Option String)
    (ep : Episode) :
    revokedURLs (stepEpisode dec n st ep).2 ++ ((stepEpisode dec n st ep).1).toList =
      st.toList ++ setURLs (stepEpisode dec n st ep).2 := by
  unfold stepEpisode
  cases hef : effectFetch (useImageHashes dec ep.source).1 with
  | none => simp [hef, revokedURLs, setURLs]
  | some p =>
    obtain ⟨u, hd⟩ := p
    cases ho : ep.outcome with
    | none => simp [hef, ho, revokedURLs, setURLs]
    | some oc =>
      cases oc with
      | failure =>
        have hrev : List.filterMap
            (fun a => match a with | Action.revoke u => some u | _ => none)
            (List.map (fun k => Action.errorCallback k (useImageHashes dec ep.source).1)
              (List.range n)) = ([] : List String) :=
          filterMap_map_none _ _ (fun _ => rfl) _
        have hset : List.filterMap
            (fun a => match a with | Action.setURL u => some u | _ => none)
            (List.map (fun k => Action.errorCallback k (useImageHashes dec ep.source).1)
              (List.range n)) = ([] : List String) :=
          filterMap_map_none _ _ (fun _ => rfl) _
        simp [hef, ho, revokedURLs, setURLs, List.filterMap_append, hrev, hset]
      | success url =>
        by_cases hbail : (st == some url) = true
        · simp [hef, ho, hbail, revokedURLs, setURLs]
        · rw [Bool.not_eq_true] at hbail
          cases st with
          | none => simp [hef, ho, hbail, revokedURLs, setURLs]
          | some old => simp [hef, ho, hbail, revokedURLs, setURLs]

/-- Accounting over a whole run: the urls revoked plus the url still held
at the end are exactly the url held at the start plus every url stored
during the run. -/
theorem runEpisodes_revoke_inv (dec : HashDecoders) (n : Nat) (eps : List Episode) :
    ∀ st : Option String,
      revokedURLs (runEpisodes dec n st eps).2 ++ ((runEpisodes dec n st eps).1).toList =
        st.toList ++ setURLs (runEpisodes dec n st eps).2 := by
  induction eps with
  | nil => intro st; simp [runEpisodes, revokedURLs, setURLs]
  | cons ep eps ih =>
    intro st
    simp only [runEpisodes, revokedURLs, setURLs, List.filterMap_append]
    have hstep := stepEpisode_revoke_inv dec n st ep
    have hrest := ih (stepEpisode dec n st ep).1
    simp only [revokedURLs, setURLs] at hstep hrest
    calc List.filterMap _ (stepEpisode dec n st ep).2 ++
          List.filterMap _ (runEpisodes dec n (stepEpisode dec n st ep).1 eps).2 ++
          ((runEpisodes dec n (stepEpisode dec n st ep).1 eps).1).toList
        = List.filterMap _ (stepEpisode dec n st ep).2 ++
            (List.filterMap _ (runEpisodes dec n (stepEpisode dec n st ep).1 eps).2 ++
              ((runEpisodes dec n (stepEpisode dec n st ep).1 eps).1).toList) := by
          rw [List.append_assoc]
      _ = List.filterMap _ (stepEpisode dec n st ep).2 ++
            (((stepEpisode dec n st ep).1).toList ++
              List.filterMap _ (runEpisodes dec n (stepEpisode dec n st ep).1 eps).2) := by
          rw [hrest]
      _ = (List.filterMap _ (stepEpisode dec n st ep).2 ++
            ((stepEpisode dec n st ep).1).toList) ++
              List.filterMap _ (runEpisodes dec n (stepEpisode dec n st ep).1 eps).2 := by
          rw [List.append_assoc]
      _ = (st.toList ++ List.filterMap _ (stepEpisode dec n st ep).2) ++
              List.filterMap _ (runEpisodes dec n (stepEpisode dec n st ep).1 eps).2 := by
          rw [hstep]
      _ = st.toList ++ (List.filterMap _ (stepEpisode dec n st ep).2 ++
              List.filterMap _ (runEpisodes dec n (stepEpisode dec n st ep).1 eps).2) := by
          rw [List.append_assoc]

/-- Claim C8: over any mounted run, the urls revoked plus the currently
held object URL are exactly the object URLs ever stored, in order — so a
stored url is revoked exactly when it is superseded, never while current;
and over the complete lifecycle (through unmount) the revoked urls are
exactly the stored ones, each revoked once. -/
theorem c8_revoke_exactly_superseded (dec : HashDecoders) (n : Nat)
    (eps : List Episode) :
    revokedURLs (runEpisodes dec n none eps).2 ++
        ((runEpisodes dec n none eps).1).toList =
      setURLs (runEpisodes dec n none eps).2 ∧
    revokedURLs (fullRun dec n eps) = setURLs (runEpisodes dec n none eps).2 := by
  have h := runEpisodes_revoke_inv dec n eps none
  simp only [Option.toList_none, List.nil_append] at h
  refine ⟨h, ?_⟩
  unfold fullRun
  simp only [revokedURLs, List.filterMap_append]
  cases hf : (runEpisodes dec n none eps).1 with
  | none =>
    rw [hf] at h
    simpa [revokedURLs] using h
  | some u =>
    rw [hf] at h
    simp only [Option.toList_some] at h
    simp only [revokedURLs] at h ⊢
    simpa [List.filterMap] using h

/-- For a source with headers but a falsy uri, the resolved uri string is
empty, the source is not a hash source, and the effect starts no fetch. -/
theorem effectFetch_none_of_no_uri (dec : HashDecoders) (source : ImageSource)
    (hdrs : List (String × String)) (hh : source.headers = some hdrs)
    (hu : uriTruthy source.uri = false) :
    (useImageHashes dec (some source)).1 = some source ∧
    effectFetch (some source) = none := by
  have hus : sourceUriStr (some source) = "" := by
    unfold sourceUriStr
    cases hc : source.uri with
    | none => simp [hc]
    | some s =>
      have hs : s = "" := by
        rw [hc] at hu
        simpa [uriTruthy] using hu
      simp [hc, hs]
  have hb : isBlurhashString (sourceUriStr (some source)) = false := by
    rw [hus]; decide
  have ht : isThumbhashString (sourceUriStr (some source)) = false := by
    rw [hus]; decide
  refine ⟨resolve_not_hash dec (some source) hb ht, ?_⟩
  cases hc : source.uri with
  | none => simp [effectFetch, hh, hc]
  | some s =>
    have hs : s = "" := by
      rw [hc] at hu
      simpa [uriTruthy] using hu
    simp [effectFetch, hh, hc, hs]

/-- Claim C10: for a source that has a headers mapping but an empty or
missing uri, the lifecycle starts no fetch and performs no action at all
— in particular no error callback is ever invoked — the object URL stays
permanently absent, and the component renders nothing. -/
theorem c10_no_uri_no_fetch (dec : HashDecoders) (n : Nat) (source : ImageSource)
    (hdrs : List (String × String)) (hh : source.headers = some hdrs)
    (hu : uriTruthy source.uri = false) (eps : List Episode)
    (heps : ∀ ep ∈ eps, ep.source = some source) :
    runEpisodes dec n none eps = (none, []) ∧
    fullRun dec n eps = [] ∧
    renderImageWrapper dec (some source) none = none := by
  obtain ⟨hres, heff⟩ := effectFetch_none_of_no_uri dec source hdrs hh hu
  have hstep : ∀ (st : Option String) (ep : Episode), ep.source = some source →
      stepEpisode dec n st ep = (st, []) := by
    intro st ep hsrc
    simp [stepEpisode, hsrc, hres, heff]
  have hrun : ∀ eps : List Episode, (∀ ep ∈ eps, ep.source = some source) →
      runEpisodes dec n none eps = (none, []) := by
    intro eps
    induction eps with
    | nil => intro _; rfl
    | cons ep eps ih =>
      intro h
      have h1 := hstep none ep (h ep (List.mem_cons_self ep eps))
      have h2 := ih fun e he => h e (List.mem_cons_of_mem ep he)
      simp [runEpisodes, h1, h2]
  have hmain := hrun eps heps
  refine ⟨hmain, ?_, ?_⟩
  · simp [fullRun, hmain]
  · simp [renderImageWrapper, hres, useHeadersReturn, hh]

/-- A source with a headers mapping but no uri at all, used at concrete
inputs. -/
def noUriSrc : ImageSource := ⟨none, some [("Authorization", "secret")]⟩

/-- Claim C10 witness: the no-fetch theorem applied to the concrete
uri-less header source, across an episode that would even offer a
successful outcome — which is never consumed. -/
theorem c10_no_uri_no_fetch_witness :
    runEpisodes decConst 1 none
        [⟨some noUriSrc, some (FetchOutcome.success "blob:1")⟩] = (none, []) ∧
    fullRun decConst 1 [⟨some noUriSrc, some (FetchOutcome.success "blob:1")⟩] = [] ∧
    renderImageWrapper decConst (some noUriSrc) none = none :=
  c10_no_uri_no_fetch decConst 1 noUriSrc [("Authorization", "secret")] rfl rfl
    [⟨some noUriSrc, some (FetchOutcome.success "blob:1")⟩]
    (by intro ep hep; fin_cases hep; rfl)
